import Mathlib

/-!
Verification of the LED frame-buffer encoder of `FastRGBChristmasTree`
(`tree.py`).  The transmission buffer is modelled as a `List Int`:
Python integers are unbounded, and the setter only checks an upper bound
of 255 on record elements, so negative values can reach the buffer.
Python's in-place list mutation is modelled by explicit state passing.
A scalar `__setitem__` additionally returns the caller's record, because
the 4-element branch mutates it (`val[0] = self.__brightness_convert(val[0])`),
and Python exceptions are modelled as an `Option TreeError` carried
alongside the buffer; writes made before a raise are kept, matching
Python's left-to-right execution.
-/

namespace FastRGBChristmasTree

/-- Python list read `l[i]` with negative-index wraparound (`l[-k]` is
`l[len l - k]`).  An out-of-range read raises `IndexError` in Python and
is exercised by no claim; it returns 0 here. -/
def pyIdx (l : List Int) (i : Int) : Int :=
  if 0 ≤ i then l.getD i.toNat 0 else l.getD (l.length - (-i).toNat) 0

/-- Python list write `l[i] = x` with negative-index wraparound.  An
out-of-range write raises `IndexError` in Python and is exercised by no
claim; it leaves the list unchanged here.  Either way the length of the
list is preserved. -/
def pySet (l : List Int) (i : Int) (x : Int) : List Int :=
  if 0 ≤ i then l.set i.toNat x else l.set (l.length - (-i).toNat) x

/-- Python slice read `l[a:b]` (step 1), with Python's clamping and
negative-endpoint normalisation. -/
def pySlice (l : List Int) (a b : Int) : List Int :=
  let n : Int := l.length
  let a1 := (if a < 0 then max 0 (n + a) else min a n).toNat
  let b1 := (if b < 0 then max 0 (n + b) else min b n).toNat
  (l.take b1).drop a1

/-- Python `range(start, stop, step)` as a list of integers.  `step = 0`
raises `ValueError` in Python and is exercised by no claim; it yields
`[]` here. -/
def pyRange (start stop step : Int) : List Int :=
  if 0 < step ∧ start < stop then
    (List.range ((stop - start - 1) / step).toNat.succ).map
      (fun k : Nat => start + step * (k : Int))
  else if step < 0 ∧ stop < start then
    (List.range ((start - stop - 1) / (-step)).toNat.succ).map
      (fun k : Nat => start + step * (k : Int))
  else []

/-- The raise sites of `tree.py`: record length not in `{3, 4}`
(`IndexError`), a record element above 255 (`ValueError`), brightness
outside `[1, 31]` (`ValueError` in `__brightness_convert`), slice
assignment with a record list whose length differs from the resolved
index range (`IndexError`), and the list-versus-int comparison reached
by an integer index with a nested value (`TypeError`). -/
inductive TreeError where
  | recordLength
  | channelRange
  | brightnessRange
  | lengthMismatch
  | typeError
  deriving DecidableEq

/-- `self.nled`. -/
def nled : Nat := 25

/-- `self.__offset`, the start-frame length. -/
def offset : Int := 4

/-- `__brightness_convert`: fails unless `1 ≤ val ≤ 31`, else returns
`0b11100000 | int(val)`; Python's `|` on ints is `Int.lor`. -/
def brightness_convert (val : Int) : Option Int :=
  if 31 < val ∨ val < 1 then none else some (Int.lor 224 val)

/-- `__brightness_revert`: `0b00011111 & val`; Python's `&` on ints is
`Int.land` (two's complement on negatives, as in Python). -/
def brightness_revert (val : Int) : Int := Int.land 31 val

/-- Result of a scalar `__setitem__` call: the buffer, the caller's
record after the call (the 4-element branch mutates it in place), and
the exception raised, if any. -/
structure SetOneResult where
  buf : List Int
  val : List Int
  err : Option TreeError
  deriving DecidableEq

/-- Scalar form of `__setitem__` (`ind` an integer, `val` a flat list),
line by line from the source: the length gate, the per-element `> 255`
gate, the wire position `s = offset + ind*4`, the 3-element shift by one
byte or the 4-element in-place brightness conversion, and the three
reversed-channel writes `buf[s], buf[s+1], buf[s+2] = val[-1], val[-2], val[-3]`. -/
def setOne (buf : List Int) (ind : Int) (val : List Int) : SetOneResult :=
  if val.length < 3 ∨ 4 < val.length then ⟨buf, val, some .recordLength⟩
  else if val.any (fun i => decide (255 < i)) then ⟨buf, val, some .channelRange⟩
  else
    let s := offset + ind * 4
    if val.length = 3 then
      let s := s + 1
      ⟨pySet (pySet (pySet buf s (pyIdx val (-1))) (s + 1) (pyIdx val (-2)))
         (s + 2) (pyIdx val (-3)), val, none⟩
    else
      match brightness_convert (pyIdx val 0) with
      | none => ⟨buf, val, some .brightnessRange⟩
      | some b =>
        let v := val.set 0 b
        ⟨pySet (pySet (pySet buf s (pyIdx v (-1))) (s + 1) (pyIdx v (-2)))
           (s + 2) (pyIdx v (-3)), v, none⟩

/-- An index accepted by `__setitem__` / `__getitem__`: an integer, or a
slice whose missing fields default to `0`, `nled` and `1`. -/
inductive Ind where
  | int (i : Int)
  | slice (start stop step : Option Int)

/-- The value argument of `__setitem__` under a slice index: the source
dispatches on `type(val[0]) is not list`, that is, on whether a flat
record or a list of records was passed. -/
inductive PyVal where
  | flat (v : List Int)
  | nested (vs : List (List Int))

/-- Buffer-and-exception result of a full `__setitem__` call. -/
structure SetResult where
  buf : List Int
  err : Option TreeError
  deriving DecidableEq

/-- The broadcast loop `for i in r: self.__setitem__(i, val)`: the same
record object is passed to every iteration, so the (possibly mutated)
record returned by each scalar call is threaded into the next one.  An
exception stops the loop, keeping the writes already made. -/
def broadcastLoop (buf val : List Int) : List Int → SetResult
  | [] => ⟨buf, none⟩
  | i :: r =>
    match setOne buf i val with
    | ⟨b2, _, some e⟩ => ⟨b2, some e⟩
    | ⟨b2, v2, none⟩ => broadcastLoop b2 v2 r

/-- The pairwise loop
`for i in range(0, len(val)): self.__setitem__(r[i], val[i])`, on the
zipped list of indices and records. -/
def pairwiseLoop (buf : List Int) : List (Int × List Int) → SetResult
  | [] => ⟨buf, none⟩
  | (i, v) :: ps =>
    match setOne buf i v with
    | ⟨b2, _, some e⟩ => ⟨b2, some e⟩
    | ⟨b2, _, none⟩ => pairwiseLoop b2 ps

/-- `__setitem__`.  A slice resolves to `range(start, stop, step)` with
the defaults `0`, `nled`, `1`; a flat record is broadcast over the
range, a list of records must match the range length exactly and is
applied pairwise, and otherwise an `IndexError` (length mismatch) is
raised.  An integer index with a list of records reaches the scalar
checks of the source: the length gate can fire, and otherwise
`i > 255` compares a list with an int and raises `TypeError`
(exercised by no claim).  An empty value list makes the dispatch
`val[0]` itself raise in Python; no claim exercises that either. -/
def setitem (buf : List Int) : Ind → PyVal → SetResult
  | .int i, .flat v =>
    let o := setOne buf i v
    ⟨o.buf, o.err⟩
  | .int _, .nested vs =>
    if vs.length < 3 ∨ 4 < vs.length then ⟨buf, some .recordLength⟩
    else ⟨buf, some .typeError⟩
  | .slice start stop step, v =>
    let r := pyRange (start.getD 0) (stop.getD (nled : Int)) (step.getD 1)
    match v with
    | .flat w => broadcastLoop buf w r
    | .nested vs =>
      if vs.length = r.length then pairwiseLoop buf (r.zip vs)
      else ⟨buf, some .lengthMismatch⟩

/-- `__getitem__`: copies the four wire bytes starting at
`offset + ind*4` and decodes the first one through
`__brightness_revert`.  The copy is a fresh list; the buffer is not
modified. -/
def getitem (buf : List Int) (ind : Int) : List Int :=
  let s := offset + ind * 4
  let val := pySlice buf s (s + 4)
  val.set 0 (brightness_revert (pyIdx val 0))

/-- `commit`: transmits the buffer over SPI.  The buffer itself is
unchanged; the transport is an external collaborator. -/
def commit (buf : List Int) : List Int := buf

/-- `off`: `for i in range(0, self.nled): self.__setitem__(i, [1, 0, 0, 0])`,
then `commit`.  A fresh record `[1, 0, 0, 0]` is built for every
iteration, so no mutation is shared between iterations. -/
def off (buf : List Int) : SetResult :=
  let o := pairwiseLoop buf
    ((pyRange 0 (nled : Int) 1).map (fun i => (i, ([1, 0, 0, 0] : List Int))))
  ⟨commit o.buf, o.err⟩

/-- `reset`: zero-fills every byte of the buffer, then `commit`. -/
def reset (buf : List Int) : List Int := commit (buf.map (fun _ => 0))

/-- The transmit buffer built in `__init__`:
`[0]*offset + [0]*(nled*4) + [0]*5`. -/
def initBuf : List Int :=
  List.replicate offset.toNat 0 ++ List.replicate (nled * 4) 0 ++ List.replicate 5 0

/-- The buffer state right after `__init__` returns (`reset()` followed
by `off()`). -/
def constructedBuf : List Int := (off (reset initBuf)).buf

/-- The `brightness` getter: sums the raw wire byte at `offset + i*4`
over every LED and divides by `nled`.  Python's `/` is true division,
so the result is modelled as a rational. -/
def brightness (buf : List Int) : ℚ :=
  (((List.range nled).foldl (fun v (i : Nat) => v + pyIdx buf (offset + (i : Int) * 4)) 0 : Int) : ℚ)
    / (nled : ℚ)

/-- The `brightness` setter: writes `__brightness_convert(val)` to the
wire brightness byte of every LED and never touches channel bytes.  The
conversion of the loop-invariant `val` either fails on the first
iteration, before any write, or never. -/
def brightnessSet (buf : List Int) (val : Int) : SetResult :=
  match brightness_convert val with
  | none => ⟨buf, some .brightnessRange⟩
  | some b =>
    ⟨(List.range nled).foldl (fun a (i : Nat) => pySet a (offset + (i : Int) * 4) b) buf, none⟩

/-- Validity of a flat 3-element record: the shape under which a scalar
`set` is guaranteed to succeed (every element at most 255; the source
checks no lower bound). -/
def valid3 (v : List Int) : Prop := v.length = 3 ∧ ∀ x ∈ v, x ≤ 255

/-- Pairwise application of a list of records to the consecutive LED
indices `a, a+1, ...`: the loop that a slice assignment
`tree[a:b] = records` performs once the index range is resolved. -/
def setConsec (buf : List Int) (a : Nat) (vs : List (List Int)) : SetResult :=
  pairwiseLoop buf (((List.range' a vs.length).map (fun k : Nat => (k : Int))).zip vs)

/-! ### Facts about the Python-list primitives -/

theorem length_pySet (l : List Int) (i x : Int) : (pySet l i x).length = l.length := by
  unfold pySet
  split <;> simp

theorem pySet_nonneg (l : List Int) (i x : Int) (h : 0 ≤ i) :
    pySet l i x = l.set i.toNat x := by
  simp [pySet, h]

theorem pyIdx_nonneg (l : List Int) (i : Int) (h : 0 ≤ i) :
    pyIdx l i = l.getD i.toNat 0 := by
  simp [pyIdx, h]

theorem getD_set_self (l : List Int) (n : Nat) (x : Int) (h : n < l.length) :
    (l.set n x).getD n 0 = x := by
  simp [List.getD_eq_getElem?_getD, List.getElem?_set_self h]

theorem getD_set_ne (l : List Int) (m n : Nat) (x : Int) (h : m ≠ n) :
    (l.set m x).getD n 0 = l.getD n 0 := by
  simp [List.getD_eq_getElem?_getD, List.getElem?_set_ne h]

/-! ### The scalar setter, case by case -/

theorem setOne_three_spec (buf : List Int) (ind : Int) (p : Nat)
    (hp : offset + ind * 4 + 1 = (p : Int))
    (x y z : Int) (hx : x ≤ 255) (hy : y ≤ 255) (hz : z ≤ 255) :
    setOne buf ind [x, y, z] =
      ⟨((buf.set p z).set (p + 1) y).set (p + 2) x, [x, y, z], none⟩ := by
  have h1 : ¬([x, y, z].length < 3 ∨ 4 < [x, y, z].length) := by simp
  have h2 : [x, y, z].any (fun i => decide (255 < i)) = false := by
    simp only [List.any_cons, List.any_nil, Bool.or_eq_false_iff,
      decide_eq_false_iff_not, not_lt]
    exact ⟨hx, hy, hz, trivial⟩
  have h3 : ([x, y, z] : List Int).length = 3 := rfl
  unfold setOne
  rw [if_neg h1, if_neg (by simp [h2]), if_pos h3]
  have e1 : pyIdx [x, y, z] (-1) = z := rfl
  have e2 : pyIdx [x, y, z] (-2) = y := rfl
  have e3 : pyIdx [x, y, z] (-3) = x := rfl
  show (⟨pySet (pySet (pySet buf (offset + ind * 4 + 1) (pyIdx [x, y, z] (-1)))
      (offset + ind * 4 + 1 + 1) (pyIdx [x, y, z] (-2)))
      (offset + ind * 4 + 1 + 2) (pyIdx [x, y, z] (-3)), [x, y, z], none⟩ : SetOneResult) = _
  rw [e1, e2, e3]
  rw [pySet_nonneg _ _ _ (by omega), pySet_nonneg _ _ _ (by omega),
    pySet_nonneg _ _ _ (by omega)]
  have t1 : (offset + ind * 4 + 1).toNat = p := by omega
  have t2 : (offset + ind * 4 + 1 + 1).toNat = p + 1 := by omega
  have t3 : (offset + ind * 4 + 1 + 2).toNat = p + 2 := by omega
  rw [t1, t2, t3]

theorem setOne_four_err_val (buf : List Int) (ind : Int) (w x y z : Int)
    (hw1 : 1 ≤ w) (hw2 : w ≤ 31) (hx : x ≤ 255) (hy : y ≤ 255) (hz : z ≤ 255) :
    (setOne buf ind [w, x, y, z]).err = none ∧
    (setOne buf ind [w, x, y, z]).val = [Int.lor 224 w, x, y, z] := by
  have h1 : ¬([w, x, y, z].length < 3 ∨ 4 < [w, x, y, z].length) := by simp
  have h2 : [w, x, y, z].any (fun i => decide (255 < i)) = false := by
    simp only [List.any_cons, List.any_nil, Bool.or_eq_false_iff,
      decide_eq_false_iff_not, not_lt]
    exact ⟨by omega, hx, hy, hz, trivial⟩
  have h3 : ¬(([w, x, y, z] : List Int).length = 3) := by simp
  have h4 : brightness_convert (pyIdx [w, x, y, z] 0) = some (Int.lor 224 w) := by
    have : pyIdx [w, x, y, z] 0 = w := rfl
    rw [this, brightness_convert, if_neg (by omega)]
  unfold setOne
  rw [if_neg h1, if_neg (by simp [h2]), if_neg h3, h4]
  exact ⟨rfl, rfl⟩

theorem setOne_four_buf (buf : List Int) (ind : Int) (p : Nat)
    (hp : offset + ind * 4 = (p : Int))
    (w x y z : Int) (hw1 : 1 ≤ w) (hw2 : w ≤ 31)
    (hx : x ≤ 255) (hy : y ≤ 255) (hz : z ≤ 255) :
    (setOne buf ind [w, x, y, z]).buf = ((buf.set p z).set (p + 1) y).set (p + 2) x := by
  have h1 : ¬([w, x, y, z].length < 3 ∨ 4 < [w, x, y, z].length) := by simp
  have h2 : [w, x, y, z].any (fun i => decide (255 < i)) = false := by
    simp only [List.any_cons, List.any_nil, Bool.or_eq_false_iff,
      decide_eq_false_iff_not, not_lt]
    exact ⟨by omega, hx, hy, hz, trivial⟩
  have h3 : ¬(([w, x, y, z] : List Int).length = 3) := by simp
  have h4 : brightness_convert (pyIdx [w, x, y, z] 0) = some (Int.lor 224 w) := by
    have : pyIdx [w, x, y, z] 0 = w := rfl
    rw [this, brightness_convert, if_neg (by omega)]
  unfold setOne
  rw [if_neg h1, if_neg (by simp [h2]), if_neg h3, h4]
  have e1 : pyIdx ([w, x, y, z].set 0 (Int.lor 224 w)) (-1) = z := rfl
  have e2 : pyIdx ([w, x, y, z].set 0 (Int.lor 224 w)) (-2) = y := rfl
  have e3 : pyIdx ([w, x, y, z].set 0 (Int.lor 224 w)) (-3) = x := rfl
  show pySet (pySet (pySet buf (offset + ind * 4)
      (pyIdx ([w, x, y, z].set 0 (Int.lor 224 w)) (-1)))
      (offset + ind * 4 + 1) (pyIdx ([w, x, y, z].set 0 (Int.lor 224 w)) (-2)))
      (offset + ind * 4 + 2) (pyIdx ([w, x, y, z].set 0 (Int.lor 224 w)) (-3)) = _
  rw [e1, e2, e3]
  rw [pySet_nonneg _ _ _ (by omega), pySet_nonneg _ _ _ (by omega),
    pySet_nonneg _ _ _ (by omega)]
  have t1 : (offset + ind * 4).toNat = p := by omega
  have t2 : (offset + ind * 4 + 1).toNat = p + 1 := by omega
  have t3 : (offset + ind * 4 + 2).toNat = p + 2 := by omega
  rw [t1, t2, t3]

theorem setOne_val_three (buf : List Int) (i : Int) (v : List Int) (hv : v.length = 3) :
    (setOne buf i v).val = v := by
  have h1 : ¬(v.length < 3 ∨ 4 < v.length) := by omega
  unfold setOne
  rw [if_neg h1]
  by_cases h2 : v.any (fun i => decide (255 < i)) = true
  · rw [if_pos h2]
  · rw [if_neg h2, if_pos hv]

theorem setOne_length (buf : List Int) (i : Int) (v : List Int) :
    (setOne buf i v).buf.length = buf.length := by
  unfold setOne
  split
  · rfl
  split
  · rfl
  split
  · simp [length_pySet]
  split
  · rfl
  · simp [length_pySet]

theorem lor224_bounds (w : Int) (h1 : 1 ≤ w) (h2 : w ≤ 31) :
    31 < Int.lor 224 w ∧ Int.lor 224 w ≤ 255 := by
  interval_cases w <;> exact ⟨by decide, by decide⟩

theorem setOne_brightness_err (buf : List Int) (ind : Int) (w x y z : Int)
    (hw1 : 31 < w) (hw2 : w ≤ 255) (hx : x ≤ 255) (hy : y ≤ 255) (hz : z ≤ 255) :
    setOne buf ind [w, x, y, z] = ⟨buf, [w, x, y, z], some .brightnessRange⟩ := by
  have h1 : ¬([w, x, y, z].length < 3 ∨ 4 < [w, x, y, z].length) := by simp
  have h2 : [w, x, y, z].any (fun i => decide (255 < i)) = false := by
    simp only [List.any_cons, List.any_nil, Bool.or_eq_false_iff,
      decide_eq_false_iff_not, not_lt]
    exact ⟨hw2, hx, hy, hz, trivial⟩
  have h3 : ¬(([w, x, y, z] : List Int).length = 3) := by simp
  have h4 : brightness_convert (pyIdx [w, x, y, z] 0) = none := by
    have e : pyIdx [w, x, y, z] 0 = w := rfl
    rw [e, brightness_convert, if_pos (Or.inl hw1)]
  unfold setOne
  rw [if_neg h1, if_neg (by simp [h2]), if_neg h3, h4]

/-! ### The resolved index range of a slice -/

theorem pyRange_nat (a b : Nat) (h : a ≤ b) :
    pyRange a b 1 = (List.range' a (b - a)).map (fun k : Nat => (k : Int)) := by
  rcases Nat.eq_or_lt_of_le h with rfl | hlt
  · have h1 : ¬((0 : Int) < 1 ∧ (a : Int) < a) := by omega
    have h2 : ¬((1 : Int) < 0 ∧ (a : Int) < a) := by omega
    rw [pyRange, if_neg h1, if_neg h2]
    simp
  · rw [pyRange, if_pos ⟨by norm_num, by exact_mod_cast hlt⟩]
    have hd : ((b : Int) - a - 1) / 1 = (b : Int) - a - 1 := by
      simp
    rw [hd]
    have ht : ((b : Int) - a - 1).toNat.succ = b - a := by omega
    rw [ht, List.range'_eq_map_range, List.map_map]
    apply List.map_congr_left
    intro k _
    simp only [Function.comp_apply]
    push_cast
    ring

theorem zip_replicate_eq_map (c : List Int) :
    ∀ (l : List Int), l.zip (List.replicate l.length c) = l.map (fun x => (x, c))
  | [] => rfl
  | x :: xs => by
    simp only [List.length_cons, List.replicate_succ, List.zip_cons_cons, List.map_cons,
      zip_replicate_eq_map c xs]

/-! ### Loop lemmas -/

theorem pairwiseLoop_length (ps : List (Int × List Int)) : ∀ buf : List Int,
    (pairwiseLoop buf ps).buf.length = buf.length := by
  induction ps with
  | nil => intro buf; rfl
  | cons p ps ih =>
    obtain ⟨i, v⟩ := p
    intro buf
    have hl := setOne_length buf i v
    rcases h : setOne buf i v with ⟨b2, v2, _ | e⟩ <;> rw [h] at hl
    · simp only [pairwiseLoop, h]
      rw [ih b2]
      exact hl
    · simp only [pairwiseLoop, h]
      exact hl

theorem broadcastLoop_length (is : List Int) : ∀ buf v : List Int,
    (broadcastLoop buf v is).buf.length = buf.length := by
  induction is with
  | nil => intro buf v; rfl
  | cons i is ih =>
    intro buf v
    have hl := setOne_length buf i v
    rcases h : setOne buf i v with ⟨b2, v2, _ | e⟩ <;> rw [h] at hl
    · simp only [broadcastLoop, h]
      rw [ih b2 v2]
      exact hl
    · simp only [broadcastLoop, h]
      exact hl

theorem broadcast_eq_pairwise (v : List Int) (hv : v.length = 3) (is : List Int) :
    ∀ buf : List Int, broadcastLoop buf v is = pairwiseLoop buf (is.map (fun i => (i, v))) := by
  induction is with
  | nil => intro buf; rfl
  | cons i is ih =>
    intro buf
    have hval := setOne_val_three buf i v hv
    rcases h : setOne buf i v with ⟨b2, v2, _ | e⟩ <;> rw [h] at hval <;>
      simp only at hval <;> subst hval
    · simp only [broadcastLoop, pairwiseLoop, List.map_cons, h]
      exact ih b2
    · simp only [broadcastLoop, pairwiseLoop, List.map_cons, h]

/-- Pairwise application of valid 3-element records to consecutive
indices: it succeeds, keeps the buffer length, writes each record's
channels (reversed) into bytes 1 to 3 of its LED slot, leaves each
slot's brightness byte alone, and leaves every byte outside the
written slots untouched. -/
theorem setConsec_spec (vs : List (List Int)) : ∀ (a : Nat) (buf : List Int),
    buf.length = 109 → a + vs.length ≤ 25 → (∀ v ∈ vs, valid3 v) →
    (setConsec buf a vs).err = none ∧
    (setConsec buf a vs).buf.length = 109 ∧
    (∀ n : Nat, n < 4 * a + 4 ∨ 4 * (a + vs.length) + 4 ≤ n →
      (setConsec buf a vs).buf.getD n 0 = buf.getD n 0) ∧
    (∀ k : Nat, (hk : k < vs.length) →
      (setConsec buf a vs).buf.getD (4 * (a + k) + 4) 0 = buf.getD (4 * (a + k) + 4) 0 ∧
      (setConsec buf a vs).buf.getD (4 * (a + k) + 5) 0 = (vs.get ⟨k, hk⟩).getD 2 0 ∧
      (setConsec buf a vs).buf.getD (4 * (a + k) + 6) 0 = (vs.get ⟨k, hk⟩).getD 1 0 ∧
      (setConsec buf a vs).buf.getD (4 * (a + k) + 7) 0 = (vs.get ⟨k, hk⟩).getD 0 0) := by
  induction vs with
  | nil =>
    intro a buf hlen _ _
    exact ⟨rfl, hlen, fun n _ => rfl, fun k hk => absurd hk (Nat.not_lt_zero k)⟩
  | cons v vs ih =>
    intro a buf hlen hle hval
    obtain ⟨hv3, hvb⟩ := hval v (List.mem_cons_self v vs)
    obtain ⟨x, y, z, rfl⟩ := List.length_eq_three.mp hv3
    have hx : x ≤ 255 := hvb x (by simp)
    have hy : y ≤ 255 := hvb y (by simp)
    have hz : z ≤ 255 := hvb z (by simp)
    have hle' : a + (vs.length + 1) ≤ 25 := by simpa using hle
    have hs := setOne_three_spec buf (a : Int) (4 * a + 5)
      (by simp only [offset]; push_cast; ring) x y z hx hy hz
    set B : List Int := ((buf.set (4 * a + 5) z).set (4 * a + 5 + 1) y).set (4 * a + 5 + 2) x
      with hB
    have hred : setConsec buf a ([x, y, z] :: vs) = setConsec B (a + 1) vs := by
      unfold setConsec
      have hr : List.range' a ([x, y, z] :: vs).length = a :: List.range' (a + 1) vs.length := by
        simp [List.range'_succ]
      rw [hr]
      simp only [List.map_cons, List.zip_cons_cons, pairwiseLoop, hs]
      rfl
    have hlenB : B.length = 109 := by simp [hB, hlen]
    have hBne : ∀ n : Nat, n ≠ 4 * a + 5 → n ≠ 4 * a + 6 → n ≠ 4 * a + 7 →
        B.getD n 0 = buf.getD n 0 := by
      intro n h5 h6 h7
      rw [hB, getD_set_ne _ _ _ _ (by omega), getD_set_ne _ _ _ _ (by omega),
        getD_set_ne _ _ _ _ (by omega)]
    have hB5 : B.getD (4 * a + 5) 0 = z := by
      rw [hB, getD_set_ne _ _ _ _ (by omega), getD_set_ne _ _ _ _ (by omega),
        getD_set_self _ _ _ (by omega)]
    have hB6 : B.getD (4 * a + 6) 0 = y := by
      have h6 : 4 * a + 5 + 1 = 4 * a + 6 := by omega
      rw [hB, getD_set_ne _ _ _ _ (by omega), h6,
        getD_set_self _ _ _ (by rw [List.length_set]; omega)]
    have hB7 : B.getD (4 * a + 7) 0 = x := by
      have h7 : 4 * a + 5 + 2 = 4 * a + 7 := by omega
      rw [hB, h7, getD_set_self _ _ _ (by rw [List.length_set, List.length_set]; omega)]
    obtain ⟨ih_err, ih_len, ih_out, ih_k⟩ :=
      ih (a + 1) B hlenB (by omega) (fun w hw => hval w (List.mem_cons_of_mem _ hw))
    rw [hred]
    refine ⟨ih_err, ih_len, ?_, ?_⟩
    · intro n hn
      rcases hn with h | h
      · rw [ih_out n (Or.inl (by omega))]
        exact hBne n (by omega) (by omega) (by omega)
      · simp only [List.length_cons] at h
        rw [ih_out n (Or.inr (by omega))]
        exact hBne n (by omega) (by omega) (by omega)
    · intro k hk
      cases k with
      | zero =>
        refine ⟨?_, ?_, ?_, ?_⟩
        · rw [ih_out (4 * (a + 0) + 4) (Or.inl (by omega))]
          exact hBne _ (by omega) (by omega) (by omega)
        · rw [ih_out (4 * (a + 0) + 5) (Or.inl (by omega))]
          show B.getD (4 * (a + 0) + 5) 0 = z
          have e : 4 * (a + 0) + 5 = 4 * a + 5 := by omega
          rw [e]
          exact hB5
        · rw [ih_out (4 * (a + 0) + 6) (Or.inl (by omega))]
          show B.getD (4 * (a + 0) + 6) 0 = y
          have e : 4 * (a + 0) + 6 = 4 * a + 6 := by omega
          rw [e]
          exact hB6
        · rw [ih_out (4 * (a + 0) + 7) (Or.inl (by omega))]
          show B.getD (4 * (a + 0) + 7) 0 = x
          have e : 4 * (a + 0) + 7 = 4 * a + 7 := by omega
          rw [e]
          exact hB7
      | succ k =>
        have hk' : k < vs.length := by
          simp only [List.length_cons] at hk
          omega
        obtain ⟨ihk4, ihk5, ihk6, ihk7⟩ := ih_k k hk'
        have e4 : 4 * (a + 1 + k) + 4 = 4 * (a + (k + 1)) + 4 := by omega
        have e5 : 4 * (a + 1 + k) + 5 = 4 * (a + (k + 1)) + 5 := by omega
        have e6 : 4 * (a + 1 + k) + 6 = 4 * (a + (k + 1)) + 6 := by omega
        have e7 : 4 * (a + 1 + k) + 7 = 4 * (a + (k + 1)) + 7 := by omega
        rw [e4] at ihk4
        rw [e5] at ihk5
        rw [e6] at ihk6
        rw [e7] at ihk7
        refine ⟨?_, ihk5, ihk6, ihk7⟩
        rw [ihk4]
        exact hBne _ (by omega) (by omega) (by omega)

/-! ### The brightness setter loop -/

theorem brightnessFold_length (b : Int) (js : List Nat) : ∀ buf : List Int,
    (js.foldl (fun a (i : Nat) => pySet a (offset + (i : Int) * 4) b) buf).length = buf.length := by
  induction js with
  | nil => intro buf; rfl
  | cons j js ih =>
    intro buf
    rw [List.foldl_cons, ih, length_pySet]

theorem brightnessFold_getD_notMem (b : Int) (js : List Nat) : ∀ (buf : List Int) (n : Nat),
    (∀ j ∈ js, 4 + 4 * j ≠ n) →
    (js.foldl (fun a (i : Nat) => pySet a (offset + (i : Int) * 4) b) buf).getD n 0 = buf.getD n 0 := by
  induction js with
  | nil => intro buf n _; rfl
  | cons j js ih =>
    intro buf n h
    rw [List.foldl_cons, ih _ n (fun t ht => h t (List.mem_cons_of_mem _ ht))]
    have ht : (offset + (j : Int) * 4).toNat = 4 + 4 * j := by simp only [offset]; omega
    rw [pySet_nonneg _ _ _ (by simp only [offset]; omega), ht,
      getD_set_ne _ _ _ _ (h j (List.mem_cons_self j js))]

theorem brightnessFold_getD_mem (b : Int) (js : List Nat) : ∀ (buf : List Int) (i : Nat),
    i ∈ js → 4 + 4 * i < buf.length →
    (js.foldl (fun a (i : Nat) => pySet a (offset + (i : Int) * 4) b) buf).getD (4 + 4 * i) 0 = b := by
  induction js with
  | nil => intro buf i hi _; exact absurd hi (List.not_mem_nil i)
  | cons j js ih =>
    intro buf i hi hlt
    rw [List.foldl_cons]
    by_cases hmem : i ∈ js
    · exact ih _ i hmem (by rw [length_pySet]; exact hlt)
    · have hij : i = j := by
        rcases List.mem_cons.mp hi with h | h
        · exact h
        · exact absurd h hmem
      subst hij
      have hne : ∀ t ∈ js, 4 + 4 * t ≠ 4 + 4 * i := by
        intro t ht he
        have : t = i := by omega
        subst this
        exact hmem ht
      rw [brightnessFold_getD_notMem b js _ _ hne]
      have ht0 : (offset + (i : Int) * 4).toNat = 4 + 4 * i := by simp only [offset]; omega
      rw [pySet_nonneg _ _ _ (by simp only [offset]; omega), ht0, getD_set_self _ _ _ hlt]

theorem sum_fold_const_aux (buf2 : List Int) (c : Int) (js : List Nat) : ∀ a : Int,
    (∀ i ∈ js, pyIdx buf2 (offset + (i : Int) * 4) = c) →
    js.foldl (fun v (i : Nat) => v + pyIdx buf2 (offset + (i : Int) * 4)) a = a + js.length * c := by
  induction js with
  | nil => intro a _; simp
  | cons j js ih =>
    intro a h
    rw [List.foldl_cons, ih _ (fun t ht => h t (List.mem_cons_of_mem _ ht)),
      h j (List.mem_cons_self j js), List.length_cons]
    push_cast
    ring

/-! ### When the scalar setter raises -/

theorem setOne_err_iff (buf : List Int) (i : Int) (v : List Int) :
    (setOne buf i v).err ≠ none ↔
      (¬(v.length = 3 ∨ v.length = 4) ∨ (∃ x ∈ v, 255 < x) ∨
        (v.length = 4 ∧ (pyIdx v 0 < 1 ∨ 31 < pyIdx v 0))) := by
  by_cases h1 : v.length < 3 ∨ 4 < v.length
  · have he : (setOne buf i v).err = some .recordLength := by
      unfold setOne
      rw [if_pos h1]
    rw [he]
    constructor
    · intro _
      exact Or.inl (by omega)
    · intro _
      exact Option.some_ne_none _
  · by_cases h2 : v.any (fun t => decide (255 < t)) = true
    · have he : (setOne buf i v).err = some .channelRange := by
        unfold setOne
        rw [if_neg h1, if_pos h2]
      rw [he]
      constructor
      · intro _
        refine Or.inr (Or.inl ?_)
        obtain ⟨x, hx, hgt⟩ := List.any_eq_true.mp h2
        exact ⟨x, hx, by simpa using hgt⟩
      · intro _
        exact Option.some_ne_none _
    · have hnot : ¬∃ x ∈ v, 255 < x := by
        rintro ⟨x, hx, hgt⟩
        exact h2 (List.any_eq_true.mpr ⟨x, hx, by simpa using hgt⟩)
      by_cases h3 : v.length = 3
      · have he : (setOne buf i v).err = none := by
          unfold setOne
          rw [if_neg h1, if_neg h2, if_pos h3]

        rw [he]
        constructor
        · intro h
          exact absurd rfl h
        · rintro (h | h | h)
          · exact absurd (Or.inl h3) h
          · exact absurd h hnot
          · exact absurd h.1 (by omega)
      · have h4 : v.length = 4 := by omega
        by_cases h5 : 31 < pyIdx v 0 ∨ pyIdx v 0 < 1
        · have he : (setOne buf i v).err = some .brightnessRange := by
            unfold setOne
            rw [if_neg h1, if_neg h2, if_neg h3, brightness_convert, if_pos h5]
          rw [he]
          constructor
          · intro _
            exact Or.inr (Or.inr ⟨h4, by tauto⟩)
          · intro _
            exact Option.some_ne_none _
        · have he : (setOne buf i v).err = none := by
            unfold setOne
            rw [if_neg h1, if_neg h2, if_neg h3, brightness_convert, if_neg h5]
          rw [he]
          constructor
          · intro h
            exact absurd rfl h
          · rintro (h | h | h)
            · exact absurd (Or.inr h4) h
            · exact absurd h hnot
            · exact absurd h.2 (by tauto)

/-! ### Reducing a slice assignment to the loops -/

theorem setitem_slice_nested_eq (buf : List Int) (a b : Nat) (hab : a ≤ b)
    (vs : List (List Int)) (hlen : vs.length = b - a) :
    setitem buf (.slice (some (a : Int)) (some (b : Int)) none) (.nested vs) =
      setConsec buf a vs := by
  unfold setitem
  simp only [Option.getD_some, Option.getD_none]
  rw [pyRange_nat a b hab, if_pos (by simp [hlen])]
  unfold setConsec
  rw [hlen]

theorem setitem_slice_nested_mismatch (buf : List Int) (a b : Nat) (hab : a ≤ b)
    (vs : List (List Int)) (hlen : vs.length ≠ b - a) :
    setitem buf (.slice (some (a : Int)) (some (b : Int)) none) (.nested vs) =
      ⟨buf, some .lengthMismatch⟩ := by
  unfold setitem
  simp only [Option.getD_some, Option.getD_none]
  rw [pyRange_nat a b hab, if_neg (by simp [hlen])]

theorem setitem_slice_flat_eq (buf : List Int) (a b : Nat) (hab : a ≤ b)
    (v : List Int) (hv : v.length = 3) :
    setitem buf (.slice (some (a : Int)) (some (b : Int)) none) (.flat v) =
      setConsec buf a (List.replicate (b - a) v) := by
  unfold setitem
  simp only [Option.getD_some, Option.getD_none]
  rw [pyRange_nat a b hab, broadcast_eq_pairwise v hv]
  unfold setConsec
  rw [List.length_replicate]
  congr 1
  have hl : ((List.range' a (b - a)).map (fun k : Nat => (k : Int))).length = b - a := by
    simp
  have hrep : List.replicate (b - a) v =
      List.replicate ((List.range' a (b - a)).map (fun k : Nat => (k : Int))).length v := by
    rw [hl]
  rw [hrep, zip_replicate_eq_map]

/-! ### Lengths of the built-in buffers -/

theorem initBuf_length : initBuf.length = 109 := rfl

theorem off_length (buf : List Int) : (off buf).buf.length = buf.length := by
  simp only [off, commit]
  rw [pairwiseLoop_length]

theorem constructedBuf_length : constructedBuf.length = 109 := by
  show (off (reset initBuf)).buf.length = 109
  rw [off_length]
  show (initBuf.map (fun _ => 0)).length = 109
  rw [List.length_map]
  rfl

set_option maxRecDepth 40000 in
/-- The buffer state after construction is the all-zero frame (the
`off()` in `__init__` writes only zeros, see C2). -/
theorem constructedBuf_eq : constructedBuf = List.replicate 109 0 := by decide

/-! ## Claim theorems -/

set_option maxRecDepth 40000 in
/-- C1 (code bug): on a freshly constructed tree, `set(0, [5, 10, 20, 30])`
succeeds but writes the blue channel into the wire brightness byte
(`buf[4] = 30`) and shifts the other channels down one byte; the encoded
brightness `0xE0 | 5` is never stored and the slot's last byte stays
untouched, so `get(0)` returns `[30, 20, 10, 0]` instead of the
`[5, 30, 20, 10]` the claim requires. -/
theorem set_four_misplaces_brightness_eval :
    (setOne constructedBuf 0 [5, 10, 20, 30]).err = none ∧
    (setOne constructedBuf 0 [5, 10, 20, 30]).buf.getD 4 0 = 30 ∧
    (setOne constructedBuf 0 [5, 10, 20, 30]).buf.getD 5 0 = 20 ∧
    (setOne constructedBuf 0 [5, 10, 20, 30]).buf.getD 6 0 = 10 ∧
    (setOne constructedBuf 0 [5, 10, 20, 30]).buf.getD 7 0 = 0 ∧
    getitem (setOne constructedBuf 0 [5, 10, 20, 30]).buf 0 = [30, 20, 10, 0] ∧
    getitem (setOne constructedBuf 0 [5, 10, 20, 30]).buf 0 ≠ [5, 30, 20, 10] := by
  rw [constructedBuf_eq]
  decide

set_option maxRecDepth 40000 in
/-- C2 (code bug): `off()` on a freshly constructed tree raises nothing
yet produces exactly the all-zero frame of `reset()`: each record
`[1, 0, 0, 0]` puts its blue channel (0) into the brightness byte while
the encoded brightness `0xE1` is dropped, so every LED's decoded
brightness is 0, not 1, and the frame is not distinct from `reset()`'s. -/
theorem off_produces_reset_frame_eval :
    (off constructedBuf).err = none ∧
    (off constructedBuf).buf = reset constructedBuf ∧
    (∀ i : Nat, i < 25 →
      brightness_revert ((off constructedBuf).buf.getD (4 * i + 4) 0) = 0) := by
  rw [constructedBuf_eq]
  have hoff : off (List.replicate 109 0) = ⟨List.replicate 109 0, none⟩ := by decide
  rw [hoff]
  decide

set_option maxRecDepth 40000 in
/-- C3 counterexample: broadcasting the valid 4-element record
`[5, 1, 2, 3]` over the two-index slice `0:2` does not apply it to both
indices — the call raises a brightness range error at the second index,
because the first application rewrote the record's brightness in place. -/
theorem broadcast_four_raises_eval :
    (setitem constructedBuf (.slice (some 0) (some 2) none) (.flat [5, 1, 2, 3])).err =
      some .brightnessRange := by
  rw [constructedBuf_eq]
  decide

/-- C3 (amended): broadcasting a flat 3-element record over a slice
applies the identical record to every index in the resolved range,
writing the reversed channels into bytes 1 to 3 of each selected slot
and leaving each slot's brightness byte alone; in particular
`set(slice(0,3), [1,2,3])` writes `[1,2,3]` to indices 0, 1 and 2.
(A 4-element record cannot be broadcast over two or more indices.) -/
theorem broadcast_flat_three_identical (buf : List Int) (hlen : buf.length = 109)
    (a b : Nat) (hab : a ≤ b) (hb : b ≤ 25) (x y z : Int)
    (hx : x ≤ 255) (hy : y ≤ 255) (hz : z ≤ 255) :
    (setitem buf (.slice (some (a : Int)) (some (b : Int)) none) (.flat [x, y, z])).err =
      none ∧
    (∀ k : Nat, a ≤ k → k < b →
      (setitem buf (.slice (some (a : Int)) (some (b : Int)) none)
          (.flat [x, y, z])).buf.getD (4 * k + 4) 0 = buf.getD (4 * k + 4) 0 ∧
      (setitem buf (.slice (some (a : Int)) (some (b : Int)) none)
          (.flat [x, y, z])).buf.getD (4 * k + 5) 0 = z ∧
      (setitem buf (.slice (some (a : Int)) (some (b : Int)) none)
          (.flat [x, y, z])).buf.getD (4 * k + 6) 0 = y ∧
      (setitem buf (.slice (some (a : Int)) (some (b : Int)) none)
          (.flat [x, y, z])).buf.getD (4 * k + 7) 0 = x) := by
  rw [setitem_slice_flat_eq buf a b hab [x, y, z] rfl]
  have hval : ∀ v ∈ List.replicate (b - a) [x, y, z], valid3 v := by
    intro v hv
    rw [List.eq_of_mem_replicate hv]
    refine ⟨rfl, ?_⟩
    intro t ht
    simp only [List.mem_cons, List.not_mem_nil, or_false] at ht
    rcases ht with rfl | rfl | rfl
    · exact hx
    · exact hy
    · exact hz
  obtain ⟨herr, hlen2, hout, hk⟩ := setConsec_spec (List.replicate (b - a) [x, y, z]) a buf
    hlen (by rw [List.length_replicate]; omega) hval
  refine ⟨herr, ?_⟩
  intro k hak hkb
  have hk' : k - a < (List.replicate (b - a) ([x, y, z] : List Int)).length := by
    rw [List.length_replicate]
    omega
  obtain ⟨h4, h5, h6, h7⟩ := hk (k - a) hk'
  have e : a + (k - a) = k := by omega
  rw [e] at h4 h5 h6 h7
  have hg : (List.replicate (b - a) ([x, y, z] : List Int)).get ⟨k - a, hk'⟩ = [x, y, z] :=
    List.get_replicate _ _
  rw [hg] at h5 h6 h7
  exact ⟨h4, h5, h6, h7⟩

/-- C4: a scalar `set` of an RGB triple writes the channels reversed
into bytes 1 to 3 of the LED's 4-byte slot and leaves the wire
brightness byte exactly as it was before the call. -/
theorem set_three_keeps_brightness_byte (buf : List Int) (hlen : buf.length = 109)
    (i : Nat) (hi : i < 25) (x y z : Int) (hx : x ≤ 255) (hy : y ≤ 255) (hz : z ≤ 255) :
    (setOne buf (i : Int) [x, y, z]).err = none ∧
    (setOne buf (i : Int) [x, y, z]).buf.getD (4 * i + 5) 0 = z ∧
    (setOne buf (i : Int) [x, y, z]).buf.getD (4 * i + 6) 0 = y ∧
    (setOne buf (i : Int) [x, y, z]).buf.getD (4 * i + 7) 0 = x ∧
    (setOne buf (i : Int) [x, y, z]).buf.getD (4 * i + 4) 0 = buf.getD (4 * i + 4) 0 := by
  have hs := setOne_three_spec buf (i : Int) (4 * i + 5)
    (by simp only [offset]; push_cast; ring) x y z hx hy hz
  rw [hs]
  refine ⟨rfl, ?_, ?_, ?_, ?_⟩
  · rw [getD_set_ne _ _ _ _ (by omega), getD_set_ne _ _ _ _ (by omega),
      getD_set_self _ _ _ (by omega)]
  · rw [getD_set_ne _ _ _ _ (by omega), show 4 * i + 5 + 1 = 4 * i + 6 by omega,
      getD_set_self _ _ _ (by rw [List.length_set]; omega)]
  · rw [show 4 * i + 5 + 2 = 4 * i + 7 by omega,
      getD_set_self _ _ _ (by rw [List.length_set, List.length_set]; omega)]
  · rw [getD_set_ne _ _ _ _ (by omega), getD_set_ne _ _ _ _ (by omega),
      getD_set_ne _ _ _ _ (by omega)]

/-- C5: slice assignment with a list of 3-element records applies the
records pairwise in order when the list length equals the resolved range
length — each selected LED slot receives its own record's reversed
channels and keeps its brightness byte, and every byte outside the
selected slots is untouched — and raises a length mismatch error when
the lengths differ. -/
theorem slice_nested_pairwise (buf : List Int) (hlen : buf.length = 109)
    (a b : Nat) (hab : a ≤ b) (hb : b ≤ 25) (vs : List (List Int))
    (hval : ∀ v ∈ vs, valid3 v) :
    (vs.length ≠ b - a →
      setitem buf (.slice (some (a : Int)) (some (b : Int)) none) (.nested vs) =
        ⟨buf, some .lengthMismatch⟩) ∧
    (vs.length = b - a →
      (setitem buf (.slice (some (a : Int)) (some (b : Int)) none) (.nested vs)).err =
        none ∧
      (∀ k : Nat, (hk : k < vs.length) →
        (setitem buf (.slice (some (a : Int)) (some (b : Int)) none)
            (.nested vs)).buf.getD (4 * (a + k) + 4) 0 = buf.getD (4 * (a + k) + 4) 0 ∧
        (setitem buf (.slice (some (a : Int)) (some (b : Int)) none)
            (.nested vs)).buf.getD (4 * (a + k) + 5) 0 = (vs.get ⟨k, hk⟩).getD 2 0 ∧
        (setitem buf (.slice (some (a : Int)) (some (b : Int)) none)
            (.nested vs)).buf.getD (4 * (a + k) + 6) 0 = (vs.get ⟨k, hk⟩).getD 1 0 ∧
        (setitem buf (.slice (some (a : Int)) (some (b : Int)) none)
            (.nested vs)).buf.getD (4 * (a + k) + 7) 0 = (vs.get ⟨k, hk⟩).getD 0 0) ∧
      (∀ n : Nat, n < 4 * a + 4 ∨ 4 * b + 4 ≤ n →
        (setitem buf (.slice (some (a : Int)) (some (b : Int)) none)
            (.nested vs)).buf.getD n 0 = buf.getD n 0)) := by
  constructor
  · intro hne
    exact setitem_slice_nested_mismatch buf a b hab vs hne
  · intro heq
    rw [setitem_slice_nested_eq buf a b hab vs heq]
    obtain ⟨herr, hlen2, hout, hk⟩ := setConsec_spec vs a buf hlen (by omega) hval
    refine ⟨herr, hk, ?_⟩
    intro n hn
    apply hout
    rcases hn with h | h
    · exact Or.inl h
    · exact Or.inr (by omega)

/-- C6: with a valid index, a scalar `set` raises exactly when the
record length is not 3 or 4, or some element exceeds 255, or a 4-element
record's first element lies outside `[1, 31]`; in particular negative
channel values are accepted, since no lower bound is checked. -/
theorem set_scalar_err_iff (buf : List Int) (i : Int) (h0 : 0 ≤ i) (h25 : i < 25)
    (v : List Int) :
    (setOne buf i v).err ≠ none ↔
      (¬(v.length = 3 ∨ v.length = 4) ∨ (∃ x ∈ v, 255 < x) ∨
        (v.length = 4 ∧ (pyIdx v 0 < 1 ∨ 31 < pyIdx v 0))) :=
  setOne_err_iff buf i v

/-- C7: a successful 4-element `set` hands the caller's record back with
its first element rewritten to `0xE0 | brightness`, and broadcasting
such a record over a slice of two or more indices therefore raises a
brightness range error when the second index is processed. -/
theorem set_four_mutates_record (buf : List Int) (i : Int) (w x y z : Int)
    (hw1 : 1 ≤ w) (hw2 : w ≤ 31) (hx : x ≤ 255) (hy : y ≤ 255) (hz : z ≤ 255)
    (a b : Nat) (h2 : a + 2 ≤ b) :
    (setOne buf i [w, x, y, z]).err = none ∧
    (setOne buf i [w, x, y, z]).val = [Int.lor 224 w, x, y, z] ∧
    (setitem buf (.slice (some (a : Int)) (some (b : Int)) none) (.flat [w, x, y, z])).err =
      some .brightnessRange := by
  obtain ⟨he, hv⟩ := setOne_four_err_val buf i w x y z hw1 hw2 hx hy hz
  refine ⟨he, hv, ?_⟩
  unfold setitem
  simp only [Option.getD_some, Option.getD_none]
  rw [pyRange_nat a b (by omega)]
  obtain ⟨n, hn⟩ : ∃ n, b - a = n + 1 + 1 := ⟨b - a - 2, by omega⟩
  rw [hn, List.range'_succ, List.range'_succ]
  simp only [List.map_cons]
  obtain ⟨he1, hv1⟩ := setOne_four_err_val buf (a : Int) w x y z hw1 hw2 hx hy hz
  rcases hs1 : setOne buf (a : Int) [w, x, y, z] with ⟨b1, v1, e1⟩
  rw [hs1] at he1 hv1
  simp only at he1 hv1
  subst he1
  subst hv1
  simp only [broadcastLoop, hs1]
  obtain ⟨hb1, hb2⟩ := lor224_bounds w hw1 hw2
  have hs2 := setOne_brightness_err b1 ((a + 1 : Nat) : Int) (Int.lor 224 w) x y z
    hb1 hb2 hx hy hz
  simp only [broadcastLoop, hs2]

/-- C8: the `brightness` getter averages the raw wire brightness bytes
without masking the `0xE0` marker: after setting every LED's brightness
to 10 through the setter, it returns `0xE0 | 10 = 234`, not the decoded
value 10. -/
theorem brightness_getter_raw_average (buf : List Int) (hlen : buf.length = 109) :
    brightness (brightnessSet buf 10).buf = 234 ∧
    brightness (brightnessSet buf 10).buf ≠ 10 := by
  have hc : brightness_convert 10 = some 234 := by decide
  have hbuf : (brightnessSet buf 10).buf =
      (List.range nled).foldl (fun a (i : Nat) => pySet a (offset + (i : Int) * 4) 234) buf := by
    unfold brightnessSet
    rw [hc]
  have hread : ∀ i ∈ List.range nled,
      pyIdx (brightnessSet buf 10).buf (offset + (i : Int) * 4) = 234 := by
    intro i hi
    have hi25 : i < 25 := by simpa [nled] using List.mem_range.mp hi
    rw [hbuf, pyIdx_nonneg _ _ (by simp only [offset]; omega),
      show (offset + (i : Int) * 4).toNat = 4 + 4 * i by simp only [offset]; omega]
    exact brightnessFold_getD_mem 234 (List.range nled) buf i hi (by omega)
  have hsum := sum_fold_const_aux (brightnessSet buf 10).buf 234 (List.range nled) 0 hread
  constructor
  · unfold brightness
    rw [hsum]
    norm_num [nled]
  · unfold brightness
    rw [hsum]
    norm_num [nled]

/-- C9: the transmission buffer has exactly
`offset + nled*4 + end_padding = 109` bytes at construction, and every
operation preserves that length: only byte contents ever change. -/
theorem buffer_length_invariant (buf : List Int) (h : buf.length = 109) :
    initBuf.length = 109 ∧ constructedBuf.length = 109 ∧
    (∀ (ind : Ind) (v : PyVal), (setitem buf ind v).buf.length = 109) ∧
    (reset buf).length = 109 ∧
    (off buf).buf.length = 109 ∧
    (∀ x : Int, (brightnessSet buf x).buf.length = 109) ∧
    (commit buf).length = 109 := by
  refine ⟨initBuf_length, constructedBuf_length, ?_, ?_, ?_, ?_, h⟩
  · rintro (i | ⟨s, t, st⟩) (v | vs)
    · simp only [setitem]
      rw [setOne_length, h]
    · simp only [setitem]
      split <;> exact h
    · simp only [setitem]
      rw [broadcastLoop_length, h]
    · simp only [setitem]
      split
      · rw [pairwiseLoop_length, h]
      · exact h
  · show (buf.map (fun _ => 0)).length = 109
    rw [List.length_map, h]
  · rw [off_length, h]
  · intro x
    rcases hc : brightness_convert x with _ | b
    · have he : brightnessSet buf x = ⟨buf, some .brightnessRange⟩ := by
        unfold brightnessSet
        rw [hc]
      rw [he]
      exact h
    · have he : brightnessSet buf x = ⟨(List.range nled).foldl
          (fun a (i : Nat) => pySet a (offset + (i : Int) * 4) b) buf, none⟩ := by
        unfold brightnessSet
        rw [hc]
      rw [he]
      rw [brightnessFold_length, h]

/-- C10: a scalar `set` does not validate the index: `set(-1, [r, g, b])`
succeeds and writes the reversed channels into start-frame padding bytes
1, 2 and 3, so (unless the record is all zeros) the padding is no longer
all zero. -/
theorem set_negative_index_writes_padding (buf : List Int) (hlen : buf.length = 109)
    (hpad : ∀ n : Nat, n < 4 → buf.getD n 0 = 0)
    (x y z : Int) (hx : x ≤ 255) (hy : y ≤ 255) (hz : z ≤ 255) :
    (setOne buf (-1) [x, y, z]).err = none ∧
    (setOne buf (-1) [x, y, z]).buf.getD 1 0 = z ∧
    (setOne buf (-1) [x, y, z]).buf.getD 2 0 = y ∧
    (setOne buf (-1) [x, y, z]).buf.getD 3 0 = x ∧
    (¬(x = 0 ∧ y = 0 ∧ z = 0) →
      ¬(∀ n : Nat, n < 4 → (setOne buf (-1) [x, y, z]).buf.getD n 0 = 0)) := by
  have hs := setOne_three_spec buf (-1) 1 (by norm_num [offset]) x y z hx hy hz
  rw [hs]
  have g1 : (((buf.set 1 z).set (1 + 1) y).set (1 + 2) x).getD 1 0 = z := by
    rw [getD_set_ne _ _ _ _ (by omega), getD_set_ne _ _ _ _ (by omega),
      getD_set_self _ _ _ (by omega)]
  have g2 : (((buf.set 1 z).set (1 + 1) y).set (1 + 2) x).getD 2 0 = y := by
    rw [getD_set_ne _ _ _ _ (by omega), show (1 + 1 : Nat) = 2 by omega,
      getD_set_self _ _ _ (by rw [List.length_set]; omega)]
  have g3 : (((buf.set 1 z).set (1 + 1) y).set (1 + 2) x).getD 3 0 = x := by
    rw [show (1 + 2 : Nat) = 3 by omega,
      getD_set_self _ _ _ (by rw [List.length_set, List.length_set]; omega)]
  refine ⟨rfl, g1, g2, g3, ?_⟩
  intro hne hall
  refine hne ⟨?_, ?_, ?_⟩
  · exact (g3.symm.trans (hall 3 (by omega)))
  · exact (g2.symm.trans (hall 2 (by omega)))
  · exact (g1.symm.trans (hall 1 (by omega)))

/-! ## Witnesses -/

/-- C3 witness: `set(slice(0,3), [1,2,3])` on the constructed tree
succeeds, and LED 1 received the broadcast record. -/
theorem broadcast_flat_three_identical_witness :
    (setitem constructedBuf (.slice (some ((0 : Nat) : Int)) (some ((3 : Nat) : Int)) none)
        (.flat [1, 2, 3])).err = none ∧
    (setitem constructedBuf (.slice (some ((0 : Nat) : Int)) (some ((3 : Nat) : Int)) none)
        (.flat [1, 2, 3])).buf.getD (4 * 1 + 5) 0 = 3 := by
  obtain ⟨h1, h2⟩ := broadcast_flat_three_identical constructedBuf constructedBuf_length
    0 3 (by norm_num) (by norm_num) 1 2 3 (by norm_num) (by norm_num) (by norm_num)
  exact ⟨h1, (h2 1 (by norm_num) (by norm_num)).2.1⟩

/-- C4 witness: `set(0, [7, 8, 9])` on the constructed tree succeeds and
wire byte 5 holds the last channel. -/
theorem set_three_keeps_brightness_byte_witness :
    (setOne constructedBuf ((0 : Nat) : Int) [7, 8, 9]).err = none ∧
    (setOne constructedBuf ((0 : Nat) : Int) [7, 8, 9]).buf.getD (4 * 0 + 5) 0 = 9 := by
  obtain ⟨h1, h2, _⟩ := set_three_keeps_brightness_byte constructedBuf constructedBuf_length
    0 (by norm_num) 7 8 9 (by norm_num) (by norm_num) (by norm_num)
  exact ⟨h1, h2⟩

/-- C5 witness: the spec's six-record example succeeds, and the
two-records-for-five-indices example fails with a length mismatch. -/
theorem slice_nested_pairwise_witness :
    (setitem constructedBuf (.slice (some ((0 : Nat) : Int)) (some ((6 : Nat) : Int)) none)
        (.nested [[255, 0, 0], [0, 255, 0], [0, 0, 255], [255, 255, 0], [255, 0, 255],
          [0, 255, 255]])).err = none ∧
    setitem constructedBuf (.slice (some ((0 : Nat) : Int)) (some ((5 : Nat) : Int)) none)
        (.nested [[1, 2, 3], [4, 5, 6]]) = ⟨constructedBuf, some .lengthMismatch⟩ := by
  have hv6 : ∀ v ∈ [[255, 0, 0], [0, 255, 0], [0, 0, 255], [255, 255, 0], [255, 0, 255],
      ([0, 255, 255] : List Int)], valid3 v := by
    intro v hv
    simp only [List.mem_cons, List.not_mem_nil, or_false] at hv
    rcases hv with rfl | rfl | rfl | rfl | rfl | rfl <;> exact ⟨rfl, by decide⟩
  have hv2 : ∀ v ∈ [[1, 2, 3], ([4, 5, 6] : List Int)], valid3 v := by
    intro v hv
    simp only [List.mem_cons, List.not_mem_nil, or_false] at hv
    rcases hv with rfl | rfl <;> exact ⟨rfl, by decide⟩
  constructor
  · exact ((slice_nested_pairwise constructedBuf constructedBuf_length 0 6 (by norm_num)
      (by norm_num) _ hv6).2 (by norm_num)).1
  · exact (slice_nested_pairwise constructedBuf constructedBuf_length 0 5 (by norm_num)
      (by norm_num) _ hv2).1 (by norm_num)

/-- C6 witness: brightness 32 is rejected at a valid index. -/
theorem set_scalar_err_iff_witness :
    (setOne constructedBuf 0 [32, 0, 0, 0]).err ≠ none :=
  (set_scalar_err_iff constructedBuf 0 (by norm_num) (by norm_num) [32, 0, 0, 0]).mpr
    (Or.inr (Or.inr (by decide)))

/-- C7 witness: broadcasting `[5, 1, 2, 3]` over `slice(0, 2)` raises a
brightness range error. -/
theorem set_four_mutates_record_witness :
    (setitem constructedBuf (.slice (some ((0 : Nat) : Int)) (some ((2 : Nat) : Int)) none)
        (.flat [5, 1, 2, 3])).err = some .brightnessRange :=
  (set_four_mutates_record constructedBuf 0 5 1 2 3 (by norm_num) (by norm_num) (by norm_num)
    (by norm_num) (by norm_num) 0 2 (by norm_num)).2.2

/-- C8 witness: the getter returns 234 on the constructed tree after
setting every LED's brightness to 10. -/
theorem brightness_getter_raw_average_witness :
    brightness (brightnessSet constructedBuf 10).buf = 234 :=
  (brightness_getter_raw_average constructedBuf constructedBuf_length).1

/-- C9 witness: the length invariant instantiated on the constructed
tree. -/
theorem buffer_length_invariant_witness :
    (reset constructedBuf).length = 109 ∧ (off constructedBuf).buf.length = 109 :=
  ⟨(buffer_length_invariant constructedBuf constructedBuf_length).2.2.2.1,
   (buffer_length_invariant constructedBuf constructedBuf_length).2.2.2.2.1⟩

/-- C10 witness: `set(-1, [7, 8, 9])` on the constructed tree succeeds
and leaves the start padding non-zero. -/
theorem set_negative_index_writes_padding_witness :
    (setOne constructedBuf (-1) [7, 8, 9]).err = none ∧
    (setOne constructedBuf (-1) [7, 8, 9]).buf.getD 1 0 = 9 ∧
    ¬(∀ n : Nat, n < 4 → (setOne constructedBuf (-1) [7, 8, 9]).buf.getD n 0 = 0) := by
  obtain ⟨h1, h2, h3, h4, h5⟩ := set_negative_index_writes_padding constructedBuf
    constructedBuf_length (by rw [constructedBuf_eq]; decide) 7 8 9
    (by norm_num) (by norm_num) (by norm_num)
  exact ⟨h1, h2, h5 (by norm_num)⟩

end FastRGBChristmasTree
